import Mathlib

/-!
Shallow embedding of `src/main_script.py` (mangrove_map): a pipeline that
mosaics per-year raster tiles into binary presence grids, accumulates
cumulative gain/loss masks across the sorted year sequence, and renders an
annotated RGBA frame per year.

Grids are lists of rows; numpy boolean arrays become `List (List Bool)`.
The float constant `pixel_area_km2 = 0.000350` and the area products are
modelled exactly over `ℚ`; the `.2f` formatting of the overlay text is
modelled by decimal rounding with ties to even (the rounding float
formatting uses).  External geospatial collaborators (`rasterio.merge`, the
affine transform, matplotlib figure output) are treated as opaque inputs:
`merge`'s output is a `(bands, H, W)` array passed in as `List Band`.
-/

namespace MangroveMap

/-- A binary presence grid (values are 0/1 after thresholding), row-major. -/
abbrev Grid := List (List Nat)

/-- One raw raster band as produced by `rasterio.merge`, before thresholding. -/
abbrev Band := List (List Int)

/-- A boolean mask, same layout as a `Grid`. -/
abbrev Mask := List (List Bool)

/-- One RGBA pixel (r, g, b, alpha), each channel a `uint8` value. -/
abbrev Pixel := Nat × Nat × Nat × Nat

/-- Row `i` of a 2D list, empty when out of range. -/
def rowAt (g : List (List α)) (i : Nat) : List α :=
  (g[i]?).getD []

/-- Cell `(i, j)` of a grid, `0` when out of range. -/
def cellAt (g : Grid) (i j : Nat) : Nat :=
  ((rowAt g i)[j]?).getD 0

/-- Cell `(i, j)` of a raw band, `0` when out of range. -/
def bandCellAt (b : Band) (i j : Nat) : Int :=
  ((rowAt b i)[j]?).getD 0

/-- Cell `(i, j)` of a mask, `false` when out of range. -/
def maskAt (m : Mask) (i j : Nat) : Bool :=
  ((rowAt m i)[j]?).getD false

/-- Pixel `(i, j)` of an RGBA image, fully transparent black when out of range. -/
def pixelAt (img : List (List Pixel)) (i j : Nat) : Pixel :=
  ((rowAt img i)[j]?).getD (0, 0, 0, 0)

/-- The shape of a 2D list: the list of its row lengths. -/
def shape (g : List (List α)) : List Nat :=
  g.map List.length

/-- Whether a reversed character list starts with the reverse of `.tif`,
i.e. whether the original name ends with the four characters `.tif`. -/
def hasTifSuffix : List Char → Bool
  | 'f' :: 'i' :: 't' :: '.' :: _ => true
  | _ => false

/-- Whether a name starts with a dot (a hidden file, which `glob`'s `*`
never matches). -/
def isHiddenName : List Char → Bool
  | '.' :: _ => true
  | _ => false

/-- Model of the file-name filter applied by
`glob.glob(os.path.join(year_path, "*.tif"))` to the directory's entries:
a name matches iff it ends with the literal characters `.tif`
(case-sensitively) and does not start with a dot (`*` does not match a
name-initial dot). -/
def matchesTifPattern (name : String) : Bool :=
  hasTifSuffix name.data.reverse && !(isHiddenName name.data)

/-- Model of `np.where(mosaic_arr > 0, 1, 0)`: threshold every cell of the
band to binary, strictly positive becomes 1, anything else becomes 0. -/
def binarize (b : Band) : Grid :=
  b.map (fun row => row.map (fun v => if 0 < v then 1 else 0))

/-- Model of `mosaic_year_tiles`: `dirFiles` is the year directory's listing
and `merged` is the `(bands, H, W)` array returned by `rasterio.merge` on the
opened tiles.  If no entry matches `*.tif` the function raises
`FileNotFoundError`; otherwise it keeps only the first band (`mosaic_arr[0]`)
and thresholds it to binary.  The accompanying affine transform is opaque
geospatial data and is not modelled. -/
def mosaic_year_tiles (dirFiles : List String) (merged : List Band) :
    Except String Grid :=
  let tif_files := dirFiles.filter matchesTifPattern
  if tif_files.isEmpty then
    Except.error "FileNotFoundError: No .tif files found"
  else
    Except.ok (binarize (merged.headD []))

/-- Model of `gains = (prev == 0) & (curr == 1)`. -/
def gainsMask (prev curr : Grid) : Mask :=
  List.zipWith (fun pr cr => List.zipWith (fun p c => p == 0 && c == 1) pr cr)
    prev curr

/-- Model of `losses = (prev == 1) & (curr == 0)`. -/
def lossesMask (prev curr : Grid) : Mask :=
  List.zipWith (fun pr cr => List.zipWith (fun p c => p == 1 && c == 0) pr cr)
    prev curr

/-- Model of `np.zeros_like(current_arr, dtype=bool)`. -/
def zerosLike (g : Grid) : Mask :=
  g.map (fun row => row.map (fun _ => false))

/-- Model of the numpy boolean-mask assignment `m[t] = True`: for same-shape
masks this is the elementwise OR of `m` and `t`. -/
def maskOr (m t : Mask) : Mask :=
  List.zipWith (fun mr tr => List.zipWith (fun a b => a || b) mr tr) m t

/-- Model of `np.sum` on a boolean mask: the number of `true` cells. -/
def countTrue (m : Mask) : Nat :=
  (m.map (fun r => r.count true)).sum

/-- The hardcoded per-cell area constant `pixel_area_km2 = 0.000350`. -/
def pixel_area_km2 : ℚ := 0.000350

/-- Round a rational to the nearest integer, ties to even (the rounding used
when formatting the area floats with `:.2f`). -/
def roundHalfEven (q : ℚ) : ℤ :=
  let f : ℤ := ⌊q⌋
  let r : ℚ := q - (f : ℚ)
  if r < 1 / 2 then f
  else if 1 / 2 < r then f + 1
  else if f % 2 = 0 then f
  else f + 1

/-- Model of the fixed-point formatting `:.2f` applied to the (nonnegative)
area totals in the overlay text. -/
def format2 (q : ℚ) : String :=
  let n : ℤ := roundHalfEven (q * 100)
  let whole : ℤ := n / 100
  let frac : Nat := (n % 100).toNat
  toString whole ++ "." ++ (if frac < 10 then "0" else "") ++ toString frac

/-- The gain overlay color `[255, 255, 0, 255]` (yellow, fully opaque). -/
def yellow : Pixel := (255, 255, 0, 255)

/-- The loss overlay color `[255, 0, 0, 255]` (red, fully opaque). -/
def red : Pixel := (255, 0, 0, 255)

/-- Model of `np.zeros((height, width, 4), dtype=np.uint8)` for the shape of
the current grid: a fully transparent image. -/
def rgbaZeros (g : Grid) : List (List Pixel) :=
  g.map (fun row => row.map (fun _ => (0, 0, 0, 0)))

/-- Model of `rgba[mask] = color`: paint `color` at every `true` cell of the
(same-shape) mask, leaving the other pixels unchanged. -/
def paint (img : List (List Pixel)) (m : Mask) (color : Pixel) :
    List (List Pixel) :=
  List.zipWith (fun ir mr => List.zipWith (fun px b => if b then color else px) ir mr)
    img m

/-- Everything the loop body emits for one year: the year label, the RGBA
overlay, the two cumulative area totals and the overlay text. -/
structure FrameOut where
  year : String
  rgba : List (List Pixel)
  total_gains_area : ℚ
  total_losses_area : ℚ
  title_text : String

/-- The loop-carried state of `main`: the two cumulative masks (initially
`None`) and the previous year's grid (initially `None`). -/
structure LoopState where
  cumulative_gains : Option Mask
  cumulative_losses : Option Mask
  previous_arr : Option Grid

/-- The state before the first iteration: everything `None`. -/
def initState : LoopState := ⟨none, none, none⟩

/-- Model of `if cumulative_losses is None:` — on the first iteration both
cumulative masks are initialized all-false with the current grid's shape,
afterwards they are kept as they are. -/
def initMasks (st : LoopState) (current_arr : Grid) : Mask × Mask :=
  match st.cumulative_gains, st.cumulative_losses with
  | some cg, some cl => (cg, cl)
  | _, _ => (zerosLike current_arr, zerosLike current_arr)

/-- Model of `if previous_arr is not None:` — when a previous year exists,
OR this transition's gains and losses into the cumulative masks. -/
def updMasks (st : LoopState) (current_arr : Grid) : Mask × Mask :=
  match st.previous_arr with
  | none => initMasks st current_arr
  | some prev =>
      (maskOr (initMasks st current_arr).1 (gainsMask prev current_arr),
       maskOr (initMasks st current_arr).2 (lossesMask prev current_arr))

/-- One iteration of the year loop of `main`: initialize the cumulative
masks on the first pass, accumulate this transition's gains and losses when
a previous year exists, render the RGBA overlay (gains painted first, then
losses over them), compute the areas and compose the overlay text. -/
def processYear (st : LoopState) (y : String) (current_arr : Grid) :
    LoopState × FrameOut :=
  let cg := (updMasks st current_arr).1
  let cl := (updMasks st current_arr).2
  let rgba := paint (paint (rgbaZeros current_arr) cg yellow) cl red
  let total_gains_area : ℚ := (countTrue cg : ℚ) * pixel_area_km2
  let total_losses_area : ℚ := (countTrue cl : ℚ) * pixel_area_km2
  let title_text :=
    "Year: " ++ y ++ "\nCumulative Gains: " ++ format2 total_gains_area ++
      " km²\nCumulative Losses: " ++ format2 total_losses_area ++ " km²"
  (⟨some cg, some cl, some current_arr⟩,
   ⟨y, rgba, total_gains_area, total_losses_area, title_text⟩)

/-- The year loop of `main`, run from a given state over the remaining
`(year, mosaic)` pairs, collecting the state after each iteration together
with the frame rendered in that iteration. -/
def runFrom (st : LoopState) : List (String × Grid) → List (LoopState × FrameOut)
  | [] => []
  | (y, g) :: rest =>
      let r := processYear st y g
      r :: runFrom r.1 rest

/-- The whole loop from the initial all-`None` state. -/
def mainLoop (pairs : List (String × Grid)) : List (LoopState × FrameOut) :=
  runFrom initState pairs

/-- Model of `sorted([d for d in os.listdir(data_dir) if os.path.isdir(...)])`:
keep the entries that are directories and sort them as strings
(lexicographically by code point, which is what Python's `sorted` does). -/
def yearsOf (entries : List String) (isDir : String → Bool) : List String :=
  (entries.filter isDir).mergeSort (fun a b => decide (a ≤ b))

/-- Model of `main`: list the year subdirectories, mosaic each year once
(`mosaicOf` closes over the directory contents and `rasterio.merge`), and run
the accumulation/render loop over the years in sorted order, yielding one
frame per year. -/
def mainFrames (entries : List String) (isDir : String → Bool)
    (mosaicOf : String → Grid) : List FrameOut :=
  (mainLoop ((yearsOf entries isDir).map (fun y => (y, mosaicOf y)))).map Prod.snd

/-- A throwaway inhabitant of the loop's step type, used as the `getD`
default when reading a concrete run off by index. -/
def sampleEntry : LoopState × FrameOut :=
  (initState, ⟨"", [], 0, 0, ""⟩)

/-! ### Basic indexing lemmas -/

theorem zipWith_getElem?_some {f : α → β → γ} {a : List α} {b : List β}
    {i : Nat} {x : α} {y : β} (hx : a[i]? = some x) (hy : b[i]? = some y) :
    (List.zipWith f a b)[i]? = some (f x y) := by
  rw [List.getElem?_zipWith, hx, hy]

theorem shape_length_eq {a : List (List α)} {b : List (List β)}
    (h : shape a = shape b) : a.length = b.length := by
  simpa [shape] using congrArg List.length h

theorem shape_row_length_eq {a : List (List α)} {b : List (List β)}
    (h : shape a = shape b) {i : Nat} {ra : List α} {rb : List β}
    (ha : a[i]? = some ra) (hb : b[i]? = some rb) : ra.length = rb.length := by
  have h2 : (a.map List.length)[i]? = (b.map List.length)[i]? := by
    unfold shape at h
    rw [h]
  rw [List.getElem?_map, List.getElem?_map, ha, hb] at h2
  simpa using h2

theorem rowAt_eq_of_getElem? {g : List (List α)} {i : Nat} {r : List α}
    (h : g[i]? = some r) : rowAt g i = r := by
  unfold rowAt
  rw [h]
  rfl

theorem zip2D_rowAt {f : α → β → γ} {a : List (List α)} {b : List (List β)}
    {i : Nat} {ra : List α} {rb : List β}
    (ha : a[i]? = some ra) (hb : b[i]? = some rb) :
    rowAt (List.zipWith (fun r s => List.zipWith f r s) a b) i =
      List.zipWith f ra rb :=
  rowAt_eq_of_getElem? (zipWith_getElem?_some ha hb)

/-- **C1.** For two consecutive grids `A` (previous) and `B` (current) of
identical shape, a cell is marked gained iff `A = 0` and `B = 1` there, marked
lost iff `A = 1` and `B = 0` there, and no cell is marked both gained and lost
in the same transition. -/
theorem transition_marking_correct (A B : Grid) (i j : Nat)
    (hsh : shape A = shape B) (hi : i < A.length)
    (hj : j < (rowAt A i).length) :
    (maskAt (gainsMask A B) i j = true ↔ cellAt A i j = 0 ∧ cellAt B i j = 1) ∧
    (maskAt (lossesMask A B) i j = true ↔ cellAt A i j = 1 ∧ cellAt B i j = 0) ∧
    ¬(maskAt (gainsMask A B) i j = true ∧
      maskAt (lossesMask A B) i j = true) := by
  have hiB : i < B.length := shape_length_eq hsh ▸ hi
  have ha : A[i]? = some A[i] := List.getElem?_eq_getElem hi
  have hb : B[i]? = some B[i] := List.getElem?_eq_getElem hiB
  have hrowA : rowAt A i = A[i] := rowAt_eq_of_getElem? ha
  have hrowlen : (A[i]).length = (B[i]).length := shape_row_length_eq hsh ha hb
  have hjA : j < (A[i]).length := hrowA ▸ hj
  have hjB : j < (B[i]).length := hrowlen ▸ hjA
  have hxa : (A[i])[j]? = some ((A[i])[j]) := List.getElem?_eq_getElem hjA
  have hxb : (B[i])[j]? = some ((B[i])[j]) := List.getElem?_eq_getElem hjB
  have hgain : maskAt (gainsMask A B) i j = ((A[i])[j] == 0 && (B[i])[j] == 1) := by
    unfold maskAt gainsMask
    rw [zip2D_rowAt ha hb, zipWith_getElem?_some hxa hxb]
    rfl
  have hloss : maskAt (lossesMask A B) i j = ((A[i])[j] == 1 && (B[i])[j] == 0) := by
    unfold maskAt lossesMask
    rw [zip2D_rowAt ha hb, zipWith_getElem?_some hxa hxb]
    rfl
  have hca : cellAt A i j = (A[i])[j] := by
    unfold cellAt
    rw [rowAt_eq_of_getElem? ha, hxa]
    rfl
  have hcb : cellAt B i j = (B[i])[j] := by
    unfold cellAt
    rw [rowAt_eq_of_getElem? hb, hxb]
    rfl
  rw [hgain, hloss, hca, hcb]
  refine ⟨by simp, by simp, ?_⟩
  simp only [Bool.and_eq_true, beq_iff_eq]
  rintro ⟨⟨h0, h1⟩, h2, h3⟩
  omega

/-- Closed witness for `transition_marking_correct` at a concrete input. -/
theorem transition_marking_correct_witness :
    (maskAt (gainsMask [[1, 0]] [[0, 1]]) 0 1 = true ↔
      cellAt [[1, 0]] 0 1 = 0 ∧ cellAt [[0, 1]] 0 1 = 1) ∧
    (maskAt (lossesMask [[1, 0]] [[0, 1]]) 0 1 = true ↔
      cellAt [[1, 0]] 0 1 = 1 ∧ cellAt [[0, 1]] 0 1 = 0) ∧
    ¬(maskAt (gainsMask [[1, 0]] [[0, 1]]) 0 1 = true ∧
      maskAt (lossesMask [[1, 0]] [[0, 1]]) 0 1 = true) :=
  transition_marking_correct [[1, 0]] [[0, 1]] 0 1 (by decide) (by decide)
    (by decide)

/-! ### Cells of mapped 2D lists -/

theorem map2D_cell (f : α → β) (g : List (List α)) (i j : Nat) (da : α) :
    ((rowAt (g.map (fun row => row.map f)) i)[j]?).getD (f da) =
      f (((rowAt g i)[j]?).getD da) := by
  unfold rowAt
  rw [List.getElem?_map]
  cases hg : g[i]? with
  | none => simp
  | some r =>
      simp only [Option.map, Option.getD_some, List.getElem?_map]
      cases hr : r[j]? <;> simp

theorem cellAt_binarize (b : Band) (i j : Nat) :
    cellAt (binarize b) i j = if 0 < bandCellAt b i j then 1 else 0 := by
  have h := map2D_cell (fun v : Int => if 0 < v then 1 else 0) b i j 0
  have h0 : (if (0 : Int) < 0 then (1 : Nat) else 0) = 0 := by norm_num
  unfold cellAt bandCellAt binarize
  rw [← h0]
  exact h

theorem maskAt_zerosLike (g : Grid) (i j : Nat) :
    maskAt (zerosLike g) i j = false := by
  have h := map2D_cell (fun _ : Nat => false) g i j 0
  unfold maskAt zerosLike
  exact h

theorem shape_zerosLike (g : Grid) : shape (zerosLike g) = shape g := by
  simp [shape, zerosLike]

theorem shape_binarize (b : Band) : shape (binarize b) = shape b := by
  simp [shape, binarize]

/-! ### The Tile Mosaicker -/

theorem mosaic_error_of_filter_nil (dirFiles : List String) (merged : List Band)
    (h : dirFiles.filter matchesTifPattern = []) :
    mosaic_year_tiles dirFiles merged =
      Except.error "FileNotFoundError: No .tif files found" := by
  unfold mosaic_year_tiles
  rw [h]
  rfl

theorem mosaic_ok_of_match (dirFiles : List String) (merged : List Band)
    {f : String} (hf : f ∈ dirFiles) (hmatch : matchesTifPattern f = true) :
    mosaic_year_tiles dirFiles merged = Except.ok (binarize (merged.headD [])) := by
  have hmem : f ∈ dirFiles.filter matchesTifPattern :=
    List.mem_filter.mpr ⟨hf, hmatch⟩
  have hne : (dirFiles.filter matchesTifPattern).isEmpty = false := by
    rw [List.isEmpty_eq_false]
    exact List.ne_nil_of_mem hmem
  simp only [mosaic_year_tiles]
  rw [hne]
  rfl

/-- **C3.** For every year directory with zero tile files the mosaicker fails
with the `FileNotFoundError`; it returns a mosaic exactly when at least one
entry of the directory matches the tile pattern. -/
theorem mosaic_fails_without_tiles (dirFiles : List String) (merged : List Band) :
    (dirFiles.filter matchesTifPattern = [] →
      mosaic_year_tiles dirFiles merged =
        Except.error "FileNotFoundError: No .tif files found") ∧
    ((∃ g, mosaic_year_tiles dirFiles merged = Except.ok g) ↔
      ∃ f ∈ dirFiles, matchesTifPattern f = true) := by
  refine ⟨mosaic_error_of_filter_nil dirFiles merged, ?_, ?_⟩
  · rintro ⟨g, hg⟩
    by_cases he : dirFiles.filter matchesTifPattern = []
    · rw [mosaic_error_of_filter_nil dirFiles merged he] at hg
      cases hg
    · obtain ⟨f, hf⟩ := List.exists_mem_of_ne_nil _ he
      exact ⟨f, (List.mem_filter.mp hf).1, (List.mem_filter.mp hf).2⟩
  · rintro ⟨f, hf, hmatch⟩
    exact ⟨binarize (merged.headD []), mosaic_ok_of_match dirFiles merged hf hmatch⟩

/-- Closed witness for `mosaic_fails_without_tiles`: an empty directory
listing produces the NotFound error. -/
theorem mosaic_fails_without_tiles_witness :
    mosaic_year_tiles [] [] =
      Except.error "FileNotFoundError: No .tif files found" :=
  (mosaic_fails_without_tiles [] []).1 (by rfl)

/-- **C7.** A successful mosaic keeps only the first band of the merged
array and thresholds every cell to binary: strictly positive values become
1, everything else (zero and negatives included) becomes 0, so the returned
grid holds only 0s and 1s. -/
theorem mosaic_keeps_first_band_binarized (dirFiles : List String)
    (merged : List Band) (g : Grid)
    (h : mosaic_year_tiles dirFiles merged = Except.ok g) :
    g = binarize (merged.headD []) ∧
    (∀ i j, cellAt g i j =
      if 0 < bandCellAt (merged.headD []) i j then 1 else 0) ∧
    ∀ i j, cellAt g i j = 0 ∨ cellAt g i j = 1 := by
  by_cases he : dirFiles.filter matchesTifPattern = []
  · rw [mosaic_error_of_filter_nil dirFiles merged he] at h
    cases h
  · obtain ⟨f, hf⟩ := List.exists_mem_of_ne_nil _ he
    rw [mosaic_ok_of_match dirFiles merged (List.mem_filter.mp hf).1
      (List.mem_filter.mp hf).2] at h
    obtain rfl : binarize (merged.headD []) = g := by
      injection h
    refine ⟨rfl, fun i j => cellAt_binarize _ i j, fun i j => ?_⟩
    rw [cellAt_binarize]
    by_cases hpos : 0 < bandCellAt (merged.headD []) i j
    · rw [if_pos hpos]
      exact Or.inr rfl
    · rw [if_neg hpos]
      exact Or.inl rfl

/-- Closed witness for `mosaic_keeps_first_band_binarized`: a two-band merge
result with zero, negative and positive cells. -/
theorem mosaic_keeps_first_band_binarized_witness :
    ([[0, 0], [1, 0]] : Grid) =
      binarize (([[[0, -3], [5, 0]], [[7, 7], [7, 7]]] : List Band).headD []) ∧
    (∀ i j, cellAt [[0, 0], [1, 0]] i j =
      if 0 < bandCellAt (([[[0, -3], [5, 0]], [[7, 7], [7, 7]]] :
        List Band).headD []) i j then 1 else 0) ∧
    (∀ i j, cellAt [[0, 0], [1, 0]] i j = 0 ∨ cellAt [[0, 0], [1, 0]] i j = 1) :=
  mosaic_keeps_first_band_binarized ["a.tif"] [[[0, -3], [5, 0]], [[7, 7], [7, 7]]]
    [[0, 0], [1, 0]] (by rfl)

/-- **C9.** Tile selection is solely by the case-sensitive pattern `*.tif`:
a non-empty directory whose files all fail the pattern (e.g. upper-case
`.TIF`, or `.tiff` / `.geotiff` extensions) still raises the NotFound
error. -/
theorem tif_pattern_case_sensitive (dirFiles : List String) (merged : List Band)
    (_hne : dirFiles ≠ [])
    (h : ∀ f ∈ dirFiles, matchesTifPattern f = false) :
    mosaic_year_tiles dirFiles merged =
      Except.error "FileNotFoundError: No .tif files found" ∧
    (matchesTifPattern "tile.TIF" = false ∧
     matchesTifPattern "tile.tiff" = false ∧
     matchesTifPattern "tile.geotiff" = false ∧
     matchesTifPattern "tile.tif" = true) := by
  refine ⟨?_, by decide, by decide, by decide, by decide⟩
  apply mosaic_error_of_filter_nil
  rw [List.filter_eq_nil_iff]
  intro f hf
  rw [h f hf]
  exact Bool.false_ne_true

/-- Closed witness for `tif_pattern_case_sensitive`: a directory holding
only wrongly-extensioned raster files. -/
theorem tif_pattern_case_sensitive_witness :
    (mosaic_year_tiles ["tile.TIF", "tile.tiff", "tile.geotiff"] [] =
      Except.error "FileNotFoundError: No .tif files found") ∧
    (matchesTifPattern "tile.TIF" = false ∧
     matchesTifPattern "tile.tiff" = false ∧
     matchesTifPattern "tile.geotiff" = false ∧
     matchesTifPattern "tile.tif" = true) :=
  tif_pattern_case_sensitive ["tile.TIF", "tile.tiff", "tile.geotiff"] []
    (by decide) (by decide)

/-! ### Cells and shapes of elementwise 2D zips -/

theorem zip_row_cell (f : α → β → γ) (da : α) (db : β) (ra : List α)
    (rb : List β) (hlen : ra.length = rb.length) (j : Nat) :
    ((List.zipWith f ra rb)[j]?).getD (f da db) =
      f ((ra[j]?).getD da) ((rb[j]?).getD db) := by
  by_cases hj : j < ra.length
  · have hjb : j < rb.length := by omega
    rw [zipWith_getElem?_some (List.getElem?_eq_getElem hj)
      (List.getElem?_eq_getElem hjb), List.getElem?_eq_getElem hj,
      List.getElem?_eq_getElem hjb]
    rfl
  · have h1 : ra[j]? = none := List.getElem?_eq_none (by omega)
    have h2 : rb[j]? = none := List.getElem?_eq_none (by omega)
    have h3 : (List.zipWith f ra rb)[j]? = none :=
      List.getElem?_eq_none (by rw [List.length_zipWith]; omega)
    rw [h1, h2, h3]
    rfl

theorem zip2D_cell (f : α → β → γ) (da : α) (db : β) (a : List (List α))
    (b : List (List β)) (hsh : shape a = shape b) (i j : Nat) :
    ((rowAt (List.zipWith (fun r s => List.zipWith f r s) a b) i)[j]?).getD (f da db) =
      f (((rowAt a i)[j]?).getD da) (((rowAt b i)[j]?).getD db) := by
  have hlen : a.length = b.length := shape_length_eq hsh
  by_cases hi : i < a.length
  · have ha := List.getElem?_eq_getElem hi
    have hb := List.getElem?_eq_getElem (show i < b.length by omega)
    rw [zip2D_rowAt ha hb, rowAt_eq_of_getElem? ha, rowAt_eq_of_getElem? hb]
    exact zip_row_cell f da db _ _ (shape_row_length_eq hsh ha hb) j
  · have hza : (List.zipWith (fun r s => List.zipWith f r s) a b)[i]? = none :=
      List.getElem?_eq_none (by rw [List.length_zipWith]; omega)
    have ha : a[i]? = none := List.getElem?_eq_none (by omega)
    have hb : b[i]? = none := List.getElem?_eq_none (by omega)
    unfold rowAt
    rw [hza, ha, hb]
    rfl

theorem maskAt_maskOr (m t : Mask) (h : shape m = shape t) (i j : Nat) :
    maskAt (maskOr m t) i j = (maskAt m i j || maskAt t i j) :=
  zip2D_cell (fun a b => a || b) false false m t h i j

theorem maskAt_gainsMask (p g : Grid) (h : shape p = shape g) (i j : Nat) :
    maskAt (gainsMask p g) i j = (cellAt p i j == 0 && cellAt g i j == 1) :=
  zip2D_cell (fun p c => p == 0 && c == 1) 0 0 p g h i j

theorem maskAt_lossesMask (p g : Grid) (h : shape p = shape g) (i j : Nat) :
    maskAt (lossesMask p g) i j = (cellAt p i j == 1 && cellAt g i j == 0) :=
  zip2D_cell (fun p c => p == 1 && c == 0) 0 0 p g h i j

theorem pixelAt_paint (img : List (List Pixel)) (m : Mask) (color : Pixel)
    (h : shape img = shape m) (i j : Nat) :
    pixelAt (paint img m color) i j =
      (if maskAt m i j then color else pixelAt img i j) := by
  have h2 := zip2D_cell (fun px b => if b then color else px) (0, 0, 0, 0) false
    img m h i j
  unfold pixelAt maskAt paint
  exact h2

theorem pixelAt_rgbaZeros (g : Grid) (i j : Nat) :
    pixelAt (rgbaZeros g) i j = (0, 0, 0, 0) := by
  have h := map2D_cell (fun _ : Nat => ((0, 0, 0, 0) : Pixel)) g i j 0
  unfold pixelAt rgbaZeros
  exact h

theorem shape_zip2D (f : α → β → γ) (a : List (List α)) :
    ∀ b : List (List β), shape a = shape b →
      shape (List.zipWith (fun r s => List.zipWith f r s) a b) = shape a := by
  induction a with
  | nil => intro b h; rfl
  | cons ra as ih =>
      intro b h
      cases b with
      | nil => simp [shape] at h
      | cons rb bs =>
          simp only [shape, List.map_cons, List.cons.injEq] at h
          obtain ⟨hl, ht⟩ := h
          simp only [List.zipWith_cons_cons, shape, List.map_cons, List.cons.injEq]
          refine ⟨by rw [List.length_zipWith]; omega, ?_⟩
          exact ih bs ht

theorem shape_maskOr (m t : Mask) (h : shape m = shape t) :
    shape (maskOr m t) = shape m :=
  shape_zip2D (fun a b => a || b) m t h

theorem shape_gainsMask (p g : Grid) (h : shape p = shape g) :
    shape (gainsMask p g) = shape p :=
  shape_zip2D (fun p c => p == 0 && c == 1) p g h

theorem shape_lossesMask (p g : Grid) (h : shape p = shape g) :
    shape (lossesMask p g) = shape p :=
  shape_zip2D (fun p c => p == 1 && c == 0) p g h

theorem shape_paint (img : List (List Pixel)) (m : Mask) (color : Pixel)
    (h : shape img = shape m) : shape (paint img m color) = shape img := by
  unfold paint
  exact shape_zip2D (fun px b => if b then color else px) img m h

theorem shape_rgbaZeros (g : Grid) : shape (rgbaZeros g) = shape g := by
  simp [shape, rgbaZeros]

/-! ### Counting true cells -/

theorem count_true_le_zipWith_or (r : List Bool) :
    ∀ t : List Bool, r.length = t.length →
      r.count true ≤ (List.zipWith (fun a b => a || b) r t).count true := by
  induction r with
  | nil => intro t h; simp
  | cons x xs ih =>
      intro t h
      cases t with
      | nil => simp at h
      | cons y ys =>
          simp only [List.zipWith_cons_cons, List.count_cons]
          have hxs := ih ys (by simpa using h)
          cases x <;> cases y <;> simp <;> omega

theorem countTrue_le_maskOr (m : Mask) :
    ∀ t : Mask, shape m = shape t → countTrue m ≤ countTrue (maskOr m t) := by
  induction m with
  | nil => intro t h; simp [countTrue, maskOr]
  | cons r rs ih =>
      intro t h
      cases t with
      | nil => simp [shape] at h
      | cons s ts =>
          simp only [shape, List.map_cons, List.cons.injEq] at h
          obtain ⟨hl, ht⟩ := h
          simp only [maskOr, List.zipWith_cons_cons, countTrue, List.map_cons,
            List.sum_cons]
          have h1 := count_true_le_zipWith_or r s hl
          have h2 := ih ts ht
          simp only [countTrue] at h2
          simp only [maskOr] at h2
          omega

theorem countTrue_zerosLike (g : Grid) : countTrue (zerosLike g) = 0 := by
  unfold countTrue zerosLike
  induction g with
  | nil => rfl
  | cons r rs ih =>
      simp only [List.map_cons, List.sum_cons]
      rw [List.count_eq_zero_of_not_mem (by simp)]
      simpa using ih

/-! ### The loop invariant -/

/-- After any iteration the state holds two cumulative masks and a previous
grid, all of the common shape `dims`. -/
def GoodState (dims : List Nat) (st : LoopState) : Prop :=
  ∃ cg cl p, st.cumulative_gains = some cg ∧ st.cumulative_losses = some cl ∧
    st.previous_arr = some p ∧ shape cg = dims ∧ shape cl = dims ∧
    shape p = dims

theorem updMasks_initState (g : Grid) :
    updMasks initState g = (zerosLike g, zerosLike g) := rfl

theorem updMasks_some {cg cl : Mask} {p : Grid} {st : LoopState}
    (h1 : st.cumulative_gains = some cg) (h2 : st.cumulative_losses = some cl)
    (h3 : st.previous_arr = some p) (g : Grid) :
    updMasks st g =
      (maskOr cg (gainsMask p g), maskOr cl (lossesMask p g)) := by
  obtain ⟨a, b, c⟩ := st
  simp only at h1 h2 h3
  subst h1
  subst h2
  subst h3
  rfl

theorem processYear_state (st : LoopState) (y : String) (g : Grid) :
    (processYear st y g).1 =
      ⟨some (updMasks st g).1, some (updMasks st g).2, some g⟩ := rfl

theorem updMasks_shape {dims : List Nat} {st : LoopState}
    (hst : st = initState ∨ GoodState dims st) {g : Grid}
    (hg : shape g = dims) :
    shape (updMasks st g).1 = dims ∧ shape (updMasks st g).2 = dims := by
  rcases hst with rfl | ⟨cg, cl, p, h1, h2, h3, hcg, hcl, hp⟩
  · rw [updMasks_initState]
    exact ⟨by rw [shape_zerosLike]; exact hg, by rw [shape_zerosLike]; exact hg⟩
  · rw [updMasks_some h1 h2 h3]
    have hpg : shape p = shape g := by rw [hp, hg]
    have hgm : shape cg = shape (gainsMask p g) := by
      rw [shape_gainsMask p g hpg, hcg, hp]
    have hlm : shape cl = shape (lossesMask p g) := by
      rw [shape_lossesMask p g hpg, hcl, hp]
    constructor
    · rw [shape_maskOr _ _ hgm]
      exact hcg
    · rw [shape_maskOr _ _ hlm]
      exact hcl

theorem processYear_good {dims : List Nat} {st : LoopState}
    (hst : st = initState ∨ GoodState dims st) {g : Grid}
    (hg : shape g = dims) (y : String) :
    GoodState dims (processYear st y g).1 := by
  obtain ⟨hsg, hsl⟩ := updMasks_shape hst hg
  exact ⟨(updMasks st g).1, (updMasks st g).2, g, rfl, rfl, rfl, hsg, hsl, hg⟩

theorem runFrom_good (dims : List Nat) (pairs : List (String × Grid)) :
    ∀ st : LoopState, (∀ p ∈ pairs, shape p.2 = dims) →
      (st = initState ∨ GoodState dims st) →
      ∀ (k : Nat) (e : LoopState × FrameOut),
        (runFrom st pairs)[k]? = some e → GoodState dims e.1 := by
  induction pairs with
  | nil =>
      intro st _ _ k e h
      simp [runFrom] at h
  | cons pr rest ih =>
      intro st hsh hst k e h
      obtain ⟨y, g⟩ := pr
      have hg : shape g = dims := hsh (y, g) (by simp)
      simp only [runFrom] at h
      cases k with
      | zero =>
          simp only [List.getElem?_cons_zero, Option.some.injEq] at h
          subst h
          exact processYear_good hst hg y
      | succ k =>
          simp only [List.getElem?_cons_succ] at h
          exact ih (processYear st y g).1 (fun p hp => hsh p (by simp [hp]))
            (Or.inr (processYear_good hst hg y)) k e h

theorem updMasks_mono {dims : List Nat} {st : LoopState}
    (hst : GoodState dims st) {g : Grid} (hg : shape g = dims)
    {cg cl : Mask} (h1 : st.cumulative_gains = some cg)
    (h2 : st.cumulative_losses = some cl) :
    (∀ i j, maskAt cg i j = true → maskAt (updMasks st g).1 i j = true) ∧
    (∀ i j, maskAt cl i j = true → maskAt (updMasks st g).2 i j = true) ∧
    countTrue cg ≤ countTrue (updMasks st g).1 ∧
    countTrue cl ≤ countTrue (updMasks st g).2 := by
  obtain ⟨cg0, cl0, p, h1', h2', h3, hcg, hcl, hp⟩ := hst
  have ecg : cg = cg0 := Option.some.inj (h1.symm.trans h1')
  subst ecg
  have ecl : cl = cl0 := Option.some.inj (h2.symm.trans h2')
  subst ecl
  rw [updMasks_some h1' h2' h3]
  dsimp only
  have hpg : shape p = shape g := by rw [hp, hg]
  have hgm : shape cg = shape (gainsMask p g) := by
    rw [shape_gainsMask p g hpg, hcg, hp]
  have hlm : shape cl = shape (lossesMask p g) := by
    rw [shape_lossesMask p g hpg, hcl, hp]
  refine ⟨?_, ?_, countTrue_le_maskOr cg _ hgm, countTrue_le_maskOr cl _ hlm⟩
  · intro i j hij
    rw [maskAt_maskOr cg _ hgm, hij]
    rfl
  · intro i j hij
    rw [maskAt_maskOr cl _ hlm, hij]
    rfl

theorem runFrom_mono_start (dims : List Nat) (pairs : List (String × Grid)) :
    ∀ st : LoopState, (∀ p ∈ pairs, shape p.2 = dims) → GoodState dims st →
      ∀ (m : Nat) (e : LoopState × FrameOut), (runFrom st pairs)[m]? = some e →
      ∀ cg cl, st.cumulative_gains = some cg →
        st.cumulative_losses = some cl →
      ∃ cg2 cl2, e.1.cumulative_gains = some cg2 ∧
        e.1.cumulative_losses = some cl2 ∧
        (∀ i j, maskAt cg i j = true → maskAt cg2 i j = true) ∧
        (∀ i j, maskAt cl i j = true → maskAt cl2 i j = true) ∧
        countTrue cg ≤ countTrue cg2 ∧ countTrue cl ≤ countTrue cl2 := by
  induction pairs with
  | nil =>
      intro st _ _ m e h
      simp [runFrom] at h
  | cons pr rest ih =>
      intro st hsh hst m e h cg cl h1 h2
      obtain ⟨y, g⟩ := pr
      have hg : shape g = dims := hsh (y, g) (by simp)
      have hstep := updMasks_mono hst hg h1 h2
      simp only [runFrom] at h
      cases m with
      | zero =>
          simp only [List.getElem?_cons_zero, Option.some.injEq] at h
          subst h
          exact ⟨(updMasks st g).1, (updMasks st g).2, rfl, rfl, hstep.1,
            hstep.2.1, hstep.2.2.1, hstep.2.2.2⟩
      | succ m =>
          simp only [List.getElem?_cons_succ] at h
          have hgood : GoodState dims (processYear st y g).1 :=
            processYear_good (Or.inr hst) hg y
          obtain ⟨cg2, cl2, e1, e2, m1, m2, c1, c2⟩ :=
            ih (processYear st y g).1 (fun p hp => hsh p (by simp [hp])) hgood
              m e h (updMasks st g).1 (updMasks st g).2 rfl rfl
          exact ⟨cg2, cl2, e1, e2,
            fun i j hij => m1 i j (hstep.1 i j hij),
            fun i j hij => m2 i j (hstep.2.1 i j hij),
            le_trans hstep.2.2.1 c1, le_trans hstep.2.2.2 c2⟩

theorem runFrom_shift (pairs : List (String × Grid)) :
    ∀ (st : LoopState) (k : Nat) (e : LoopState × FrameOut),
      (runFrom st pairs)[k]? = some e →
      ∀ m, (runFrom st pairs)[k + 1 + m]? =
        (runFrom e.1 (pairs.drop (k + 1)))[m]? := by
  induction pairs with
  | nil =>
      intro st k e h
      simp [runFrom] at h
  | cons pr rest ih =>
      intro st k e h m
      obtain ⟨y, g⟩ := pr
      simp only [runFrom] at h ⊢
      cases k with
      | zero =>
          simp only [List.getElem?_cons_zero, Option.some.injEq] at h
          subst h
          rw [show 0 + 1 + m = m + 1 by omega]
          simp [List.getElem?_cons_succ]
      | succ k =>
          simp only [List.getElem?_cons_succ] at h
          have h2 := ih (processYear st y g).1 k e h m
          rw [show k + 1 + 1 + m = (k + 1 + m) + 1 by omega]
          simpa [List.getElem?_cons_succ] using h2

theorem mainLoop_mono (pairs : List (String × Grid)) (dims : List Nat)
    (hsh : ∀ p ∈ pairs, shape p.2 = dims) (k m : Nat) (hkm : k ≤ m)
    (e1 e2 : LoopState × FrameOut)
    (h1 : (mainLoop pairs)[k]? = some e1)
    (h2 : (mainLoop pairs)[m]? = some e2) :
    ∃ cg1 cl1 cg2 cl2,
      e1.1.cumulative_gains = some cg1 ∧ e1.1.cumulative_losses = some cl1 ∧
      e2.1.cumulative_gains = some cg2 ∧ e2.1.cumulative_losses = some cl2 ∧
      (∀ i j, maskAt cg1 i j = true → maskAt cg2 i j = true) ∧
      (∀ i j, maskAt cl1 i j = true → maskAt cl2 i j = true) ∧
      countTrue cg1 ≤ countTrue cg2 ∧ countTrue cl1 ≤ countTrue cl2 := by
  simp only [mainLoop] at h1 h2
  have hgood1 : GoodState dims e1.1 :=
    runFrom_good dims pairs initState hsh (Or.inl rfl) k e1 h1
  obtain ⟨cg1, cl1, p1, hg1, hl1, hp1, hsg1, hsl1, hsp1⟩ := hgood1
  rcases Nat.lt_or_ge k m with hlt | hge
  · obtain ⟨d, rfl⟩ : ∃ d, m = k + 1 + d := ⟨m - k - 1, by omega⟩
    rw [runFrom_shift pairs initState k e1 h1 d] at h2
    have hsh' : ∀ p ∈ pairs.drop (k + 1), shape p.2 = dims :=
      fun p hp => hsh p (List.mem_of_mem_drop hp)
    obtain ⟨cg2, cl2, e2g, e2l, m1, m2, c1, c2⟩ :=
      runFrom_mono_start dims (pairs.drop (k + 1)) e1.1 hsh'
        ⟨cg1, cl1, p1, hg1, hl1, hp1, hsg1, hsl1, hsp1⟩ d e2 h2 cg1 cl1 hg1 hl1
    exact ⟨cg1, cl1, cg2, cl2, hg1, hl1, e2g, e2l, m1, m2, c1, c2⟩
  · obtain rfl : k = m := by omega
    rw [h1] at h2
    obtain rfl : e1 = e2 := Option.some.inj h2
    exact ⟨cg1, cl1, cg1, cl1, hg1, hl1, hg1, hl1, fun i j h => h,
      fun i j h => h, le_refl _, le_refl _⟩

/-! ### What each emitted frame contains -/

theorem runFrom_frame_fields (pairs : List (String × Grid)) :
    ∀ (st : LoopState) (k : Nat) (e : LoopState × FrameOut),
      (runFrom st pairs)[k]? = some e →
      ∃ cg cl, e.1.cumulative_gains = some cg ∧
        e.1.cumulative_losses = some cl ∧
        e.2.total_gains_area = (countTrue cg : ℚ) * pixel_area_km2 ∧
        e.2.total_losses_area = (countTrue cl : ℚ) * pixel_area_km2 ∧
        e.2.title_text = "Year: " ++ e.2.year ++ "\nCumulative Gains: " ++
          format2 e.2.total_gains_area ++ " km²\nCumulative Losses: " ++
          format2 e.2.total_losses_area ++ " km²" := by
  induction pairs with
  | nil =>
      intro st k e h
      simp [runFrom] at h
  | cons pr rest ih =>
      intro st k e h
      obtain ⟨y, g⟩ := pr
      simp only [runFrom] at h
      cases k with
      | zero =>
          simp only [List.getElem?_cons_zero, Option.some.injEq] at h
          subst h
          exact ⟨(updMasks st g).1, (updMasks st g).2, rfl, rfl, rfl, rfl, rfl⟩
      | succ k =>
          simp only [List.getElem?_cons_succ] at h
          exact ih _ k e h

theorem runFrom_frame_rgba (pairs : List (String × Grid)) :
    ∀ (st : LoopState) (k : Nat) (e : LoopState × FrameOut),
      (runFrom st pairs)[k]? = some e →
      ∃ cg cl g, e.1.cumulative_gains = some cg ∧
        e.1.cumulative_losses = some cl ∧ e.1.previous_arr = some g ∧
        e.2.rgba = paint (paint (rgbaZeros g) cg yellow) cl red := by
  induction pairs with
  | nil =>
      intro st k e h
      simp [runFrom] at h
  | cons pr rest ih =>
      intro st k e h
      obtain ⟨y, g⟩ := pr
      simp only [runFrom] at h
      cases k with
      | zero =>
          simp only [List.getElem?_cons_zero, Option.some.injEq] at h
          subst h
          exact ⟨(updMasks st g).1, (updMasks st g).2, g, rfl, rfl, rfl, rfl⟩
      | succ k =>
          simp only [List.getElem?_cons_succ] at h
          exact ih _ k e h

theorem mainLoop_pixel_formula (pairs : List (String × Grid)) (dims : List Nat)
    (hsh : ∀ p ∈ pairs, shape p.2 = dims) (k : Nat) (e : LoopState × FrameOut)
    (h : (mainLoop pairs)[k]? = some e) :
    ∃ cg cl, e.1.cumulative_gains = some cg ∧
      e.1.cumulative_losses = some cl ∧
      ∀ i j, pixelAt e.2.rgba i j =
        if maskAt cl i j then red
        else if maskAt cg i j then yellow
        else (0, 0, 0, 0) := by
  simp only [mainLoop] at h
  obtain ⟨cg, cl, g, hcg, hcl, hprev, hr⟩ := runFrom_frame_rgba pairs initState k e h
  obtain ⟨cg', cl', p', hcg', hcl', hp', hscg, hscl, hsp⟩ :=
    runFrom_good dims pairs initState hsh (Or.inl rfl) k e h
  obtain rfl : cg = cg' := Option.some.inj (hcg.symm.trans hcg')
  obtain rfl : cl = cl' := Option.some.inj (hcl.symm.trans hcl')
  obtain rfl : g = p' := Option.some.inj (hprev.symm.trans hp')
  have s1 : shape (rgbaZeros g) = shape cg := by
    rw [shape_rgbaZeros, hsp, hscg]
  have s2 : shape (paint (rgbaZeros g) cg yellow) = shape cl := by
    rw [shape_paint _ _ _ s1, shape_rgbaZeros, hsp, hscl]
  refine ⟨cg, cl, hcg, hcl, fun i j => ?_⟩
  rw [hr, pixelAt_paint _ _ _ s2 i j]
  by_cases hb : maskAt cl i j = true
  · rw [hb]
    rfl
  · rw [Bool.not_eq_true] at hb
    rw [hb, pixelAt_paint _ _ _ s1 i j, pixelAt_rgbaZeros]

/-! ### The year listing -/

theorem runFrom_map_year (pairs : List (String × Grid)) :
    ∀ st : LoopState,
      (runFrom st pairs).map (fun e => e.2.year) = pairs.map Prod.fst := by
  induction pairs with
  | nil => intro st; rfl
  | cons pr rest ih =>
      intro st
      obtain ⟨y, g⟩ := pr
      simp only [runFrom, List.map_cons]
      rw [ih (processYear st y g).1]
      rfl

theorem yearsOf_sorted (entries : List String) (isDir : String → Bool) :
    List.Sorted (· ≤ ·) (yearsOf entries isDir) := by
  have h := List.sorted_mergeSort
    (fun (a b c : String) (hab : decide (a ≤ b) = true)
        (hbc : decide (b ≤ c) = true) =>
      decide_eq_true (le_trans (of_decide_eq_true hab) (of_decide_eq_true hbc)))
    (fun a b : String => by
      simp only [Bool.or_eq_true, decide_eq_true_eq]
      exact le_total a b)
    (entries.filter isDir)
  exact h.imp (fun hab => of_decide_eq_true hab)

/-- **C2.** The cumulative gain and loss masks are monotone across the year
sequence: a cell true after some year stays true after every later year
(in particular the next one), so the count of true cells never decreases
from one year to the next. -/
theorem cumulative_masks_monotone (pairs : List (String × Grid))
    (dims : List Nat) (hsh : ∀ p ∈ pairs, shape p.2 = dims) (k m : Nat)
    (hkm : k ≤ m) (e1 e2 : LoopState × FrameOut)
    (h1 : (mainLoop pairs)[k]? = some e1)
    (h2 : (mainLoop pairs)[m]? = some e2) :
    ∃ cg1 cl1 cg2 cl2,
      e1.1.cumulative_gains = some cg1 ∧ e1.1.cumulative_losses = some cl1 ∧
      e2.1.cumulative_gains = some cg2 ∧ e2.1.cumulative_losses = some cl2 ∧
      (∀ i j, maskAt cg1 i j = true → maskAt cg2 i j = true) ∧
      (∀ i j, maskAt cl1 i j = true → maskAt cl2 i j = true) ∧
      countTrue cg1 ≤ countTrue cg2 ∧ countTrue cl1 ≤ countTrue cl2 :=
  mainLoop_mono pairs dims hsh k m hkm e1 e2 h1 h2

/-- Closed witness for `cumulative_masks_monotone` on a two-year run. -/
theorem cumulative_masks_monotone_witness :
    ∃ cg1 cl1 cg2 cl2,
      ((mainLoop [("2000", [[0]]), ("2001", [[1]])]).getD 0
        sampleEntry).1.cumulative_gains = some cg1 ∧
      ((mainLoop [("2000", [[0]]), ("2001", [[1]])]).getD 0
        sampleEntry).1.cumulative_losses = some cl1 ∧
      ((mainLoop [("2000", [[0]]), ("2001", [[1]])]).getD 1
        sampleEntry).1.cumulative_gains = some cg2 ∧
      ((mainLoop [("2000", [[0]]), ("2001", [[1]])]).getD 1
        sampleEntry).1.cumulative_losses = some cl2 ∧
      (∀ i j, maskAt cg1 i j = true → maskAt cg2 i j = true) ∧
      (∀ i j, maskAt cl1 i j = true → maskAt cl2 i j = true) ∧
      countTrue cg1 ≤ countTrue cg2 ∧ countTrue cl1 ≤ countTrue cl2 :=
  cumulative_masks_monotone [("2000", [[0]]), ("2001", [[1]])] [1]
    (by decide) 0 1 (by omega)
    ((mainLoop [("2000", [[0]]), ("2001", [[1]])]).getD 0 sampleEntry)
    ((mainLoop [("2000", [[0]]), ("2001", [[1]])]).getD 1 sampleEntry)
    (by rfl) (by rfl)

/-- **C4.** For the first year of any non-empty year sequence no comparison
is made: both cumulative masks are the all-false mask of the first grid's
shape, and both reported cumulative areas are exactly zero. -/
theorem first_year_all_false_zero_areas (y : String) (g : Grid)
    (rest : List (String × Grid)) :
    ∃ st fr, (mainLoop ((y, g) :: rest))[0]? = some (st, fr) ∧
      st.cumulative_gains = some (zerosLike g) ∧
      st.cumulative_losses = some (zerosLike g) ∧
      (∀ i j, maskAt (zerosLike g) i j = false) ∧
      fr.total_gains_area = 0 ∧ fr.total_losses_area = 0 := by
  refine ⟨(processYear initState y g).1, (processYear initState y g).2,
    ?_, rfl, rfl, maskAt_zerosLike g, ?_, ?_⟩
  · show (mainLoop ((y, g) :: rest))[0]? =
      some ((processYear initState y g).1, (processYear initState y g).2)
    simp [mainLoop, runFrom]
  · have h : (processYear initState y g).2.total_gains_area =
        (countTrue (zerosLike g) : ℚ) * pixel_area_km2 := rfl
    rw [h, countTrue_zerosLike]
    simp
  · have h : (processYear initState y g).2.total_losses_area =
        (countTrue (zerosLike g) : ℚ) * pixel_area_km2 := rfl
    rw [h, countTrue_zerosLike]
    simp

/-- **C5.** Every frame reports, for each cumulative mask, the area
`(count of true cells) × pixel_area_km2` with `pixel_area_km2 = 0.000350`,
and places the two-decimal formatting of exactly those products in the
overlay text. -/
theorem area_equals_count_times_constant (pairs : List (String × Grid))
    (k : Nat) (e : LoopState × FrameOut)
    (h : (mainLoop pairs)[k]? = some e) :
    ∃ cg cl, e.1.cumulative_gains = some cg ∧
      e.1.cumulative_losses = some cl ∧
      e.2.total_gains_area = (countTrue cg : ℚ) * pixel_area_km2 ∧
      e.2.total_losses_area = (countTrue cl : ℚ) * pixel_area_km2 ∧
      pixel_area_km2 = 350 / 1000000 ∧
      e.2.title_text = "Year: " ++ e.2.year ++ "\nCumulative Gains: " ++
        format2 e.2.total_gains_area ++ " km²\nCumulative Losses: " ++
        format2 e.2.total_losses_area ++ " km²" := by
  simp only [mainLoop] at h
  obtain ⟨cg, cl, h1, h2, h3, h4, h5⟩ := runFrom_frame_fields pairs initState k e h
  exact ⟨cg, cl, h1, h2, h3, h4, by norm_num [pixel_area_km2], h5⟩

/-- Closed witness for `area_equals_count_times_constant` on a one-year run. -/
theorem area_equals_count_times_constant_witness :
    ∃ cg cl,
      ((mainLoop [("2001", [[1, 0]])]).getD 0
        sampleEntry).1.cumulative_gains = some cg ∧
      ((mainLoop [("2001", [[1, 0]])]).getD 0
        sampleEntry).1.cumulative_losses = some cl ∧
      ((mainLoop [("2001", [[1, 0]])]).getD 0 sampleEntry).2.total_gains_area =
        (countTrue cg : ℚ) * pixel_area_km2 ∧
      ((mainLoop [("2001", [[1, 0]])]).getD 0 sampleEntry).2.total_losses_area =
        (countTrue cl : ℚ) * pixel_area_km2 ∧
      pixel_area_km2 = 350 / 1000000 ∧
      ((mainLoop [("2001", [[1, 0]])]).getD 0 sampleEntry).2.title_text =
        "Year: " ++ ((mainLoop [("2001", [[1, 0]])]).getD 0 sampleEntry).2.year ++
        "\nCumulative Gains: " ++
        format2 ((mainLoop [("2001", [[1, 0]])]).getD 0
          sampleEntry).2.total_gains_area ++
        " km²\nCumulative Losses: " ++
        format2 ((mainLoop [("2001", [[1, 0]])]).getD 0
          sampleEntry).2.total_losses_area ++ " km²" :=
  area_equals_count_times_constant [("2001", [[1, 0]])] 0
    ((mainLoop [("2001", [[1, 0]])]).getD 0 sampleEntry) (by rfl)

/-- **C6.** In every rendered frame a cell true in the cumulative loss mask
is painted the loss color (red) even when it is also in the gain mask; a
cell true only in the gain mask is painted yellow at full opacity; a cell in
neither mask is fully transparent; and once a cell is in the loss mask at
year `k` it is painted red in the frame of year `k` and of every later
year. -/
theorem loss_paint_precedence (pairs : List (String × Grid))
    (dims : List Nat) (hsh : ∀ p ∈ pairs, shape p.2 = dims) (k : Nat)
    (e : LoopState × FrameOut) (h : (mainLoop pairs)[k]? = some e) :
    ∃ cg cl, e.1.cumulative_gains = some cg ∧
      e.1.cumulative_losses = some cl ∧
      (∀ i j, maskAt cl i j = true → pixelAt e.2.rgba i j = red) ∧
      (∀ i j, maskAt cg i j = true → maskAt cl i j = false →
        pixelAt e.2.rgba i j = yellow) ∧
      (∀ i j, maskAt cg i j = false → maskAt cl i j = false →
        pixelAt e.2.rgba i j = (0, 0, 0, 0)) ∧
      (∀ m e2, k ≤ m → (mainLoop pairs)[m]? = some e2 →
        ∀ i j, maskAt cl i j = true → pixelAt e2.2.rgba i j = red) := by
  obtain ⟨cg, cl, hcg, hcl, hpix⟩ := mainLoop_pixel_formula pairs dims hsh k e h
  refine ⟨cg, cl, hcg, hcl, ?_, ?_, ?_, ?_⟩
  · intro i j hl
    rw [hpix i j, hl]
    rfl
  · intro i j hg hl
    rw [hpix i j, hg, hl]
    rfl
  · intro i j hg hl
    rw [hpix i j, hg, hl]
    rfl
  · intro m e2 hkm h2 i j hl
    obtain ⟨cg1, cl1, cg2, cl2, hg1, hl1, hg2, hl2, m1, m2, c1, c2⟩ :=
      mainLoop_mono pairs dims hsh k m hkm e e2 h h2
    obtain rfl : cl = cl1 := Option.some.inj (hcl.symm.trans hl1)
    obtain ⟨cg2', cl2', hcg2', hcl2', hpix2⟩ :=
      mainLoop_pixel_formula pairs dims hsh m e2 h2
    obtain rfl : cl2 = cl2' := Option.some.inj (hl2.symm.trans hcl2')
    rw [hpix2 i j, m2 i j hl]
    rfl

/-- Closed witness for `loss_paint_precedence`: a cell gained in the first
transition coexists with a cell lost in it. -/
theorem loss_paint_precedence_witness :
    ∃ cg cl,
      ((mainLoop [("2000", [[0, 1]]), ("2001", [[1, 0]])]).getD 1
        sampleEntry).1.cumulative_gains = some cg ∧
      ((mainLoop [("2000", [[0, 1]]), ("2001", [[1, 0]])]).getD 1
        sampleEntry).1.cumulative_losses = some cl ∧
      (∀ i j, maskAt cl i j = true →
        pixelAt ((mainLoop [("2000", [[0, 1]]), ("2001", [[1, 0]])]).getD 1
          sampleEntry).2.rgba i j = red) ∧
      (∀ i j, maskAt cg i j = true → maskAt cl i j = false →
        pixelAt ((mainLoop [("2000", [[0, 1]]), ("2001", [[1, 0]])]).getD 1
          sampleEntry).2.rgba i j = yellow) ∧
      (∀ i j, maskAt cg i j = false → maskAt cl i j = false →
        pixelAt ((mainLoop [("2000", [[0, 1]]), ("2001", [[1, 0]])]).getD 1
          sampleEntry).2.rgba i j = (0, 0, 0, 0)) ∧
      (∀ m e2, 1 ≤ m →
        (mainLoop [("2000", [[0, 1]]), ("2001", [[1, 0]])])[m]? = some e2 →
        ∀ i j, maskAt cl i j = true → pixelAt e2.2.rgba i j = red) :=
  loss_paint_precedence [("2000", [[0, 1]]), ("2001", [[1, 0]])] [2]
    (by decide) 1
    ((mainLoop [("2000", [[0, 1]]), ("2001", [[1, 0]])]).getD 1 sampleEntry)
    (by rfl)

/-- **C8.** On the three-year scenario the cumulative gain mask has 0, 1 and
3 true cells after the years 2000, 2001 and 2002 respectively, and the
cumulative loss mask stays at 0 true cells throughout. -/
theorem end_to_end_three_year_scenario :
    (mainLoop [("2000", [[0, 0], [0, 0]]), ("2001", [[1, 0], [0, 0]]),
        ("2002", [[1, 0], [1, 1]])]).map
      (fun e => (e.1.cumulative_gains.map countTrue,
        e.1.cumulative_losses.map countTrue)) =
      [(some 0, some 0), (some 1, some 0), (some 3, some 0)] := by
  rfl

/-- **C10.** The processed year sequence is the list of immediate
subdirectory names, every one of them with no name validation, sorted by
lexicographic string comparison (so `"10"` sorts before `"9"`), and the loop
renders exactly one frame per year, labelled with the years in that order. -/
theorem years_sorted_lexicographically (entries : List String)
    (isDir : String → Bool) (mosaicOf : String → Grid) :
    List.Sorted (· ≤ ·) (yearsOf entries isDir) ∧
    (yearsOf entries isDir).Perm (entries.filter isDir) ∧
    (mainFrames entries isDir mosaicOf).map FrameOut.year =
      yearsOf entries isDir ∧
    yearsOf ["9", "10"] (fun _ => true) = ["10", "9"] := by
  refine ⟨yearsOf_sorted entries isDir, List.mergeSort_perm _ _, ?_, ?_⟩
  · show ((runFrom initState ((yearsOf entries isDir).map
        (fun y => (y, mosaicOf y)))).map Prod.snd).map FrameOut.year = _
    rw [List.map_map]
    have h2 : (FrameOut.year ∘ Prod.snd : LoopState × FrameOut → String) =
        (fun e => e.2.year) := rfl
    rw [h2, runFrom_map_year ((yearsOf entries isDir).map
      (fun y => (y, mosaicOf y))) initState, List.map_map]
    have h3 : (Prod.fst ∘ fun y : String => (y, mosaicOf y)) = id := rfl
    rw [h3, List.map_id]
  · have h109 : ("10" : String) ≤ "9" := by
      rw [String.le_iff_toList_le]
      decide
    have hsorted2 : List.Sorted (· ≤ ·) (["10", "9"] : List String) := by
      refine List.sorted_cons.mpr ⟨?_, List.sorted_singleton _⟩
      intro b hb
      simp only [List.mem_singleton] at hb
      subst hb
      exact h109
    have hperm : (yearsOf ["9", "10"] (fun _ => true)).Perm ["10", "9"] := by
      unfold yearsOf
      refine (List.mergeSort_perm _ _).trans ?_
      have hf : (["9", "10"].filter (fun _ => true)) = ["9", "10"] := by simp
      rw [hf]
      exact List.Perm.swap "10" "9" []
    exact List.eq_of_perm_of_sorted hperm (yearsOf_sorted _ _) hsorted2

end MangroveMap
